import Mathlib

/-!
Verification of the conda-rich reporter plugin (`conda_rich/hooks.py`).

The module is a thin adapter: it exposes a renderer (`RichReporterRenderer`)
with quiet and interactive variants of a progress bar and a spinner, plus a
plain-text detail view and an environment listing.  We embed the observable
behaviour of each class shallowly: terminal writes become explicit `String`
outputs, the mutable task table of the external `rich.progress.Progress`
object becomes an explicit state record, Python `None`/`isinstance` checks
become `Option`, and a raised exception becomes an `Except`/`Option` error
value that the caller sees.
-/

namespace CondaRich

/-- A Python exception value propagating through a `with` block (we only need
its identity, carried through unchanged). -/
inductive PyExc
  | mk (msg : String)
deriving DecidableEq, Repr

/-- `conda.exceptions.CondaError`, carrying its message. -/
inductive CondaError
  | mk (msg : String)
deriving DecidableEq, Repr

/-- A value of Python type `str | int | bool`, as accepted by
`detail_view`'s mapping. -/
inductive PyValue
  | str (s : String)
  | int (n : Int)
  | bool (b : Bool)
deriving DecidableEq, Repr

/-- Python `f"{value}"` / `str(value)` for the three value types. -/
def PyValue.toStr : PyValue → String
  | .str s => s
  | .int n => toString n
  | .bool b => if b then "True" else "False"

/-- Python `max` over a list: raises `ValueError` (here: `none`) on an empty
sequence, otherwise the maximum. -/
def pyMax : List Nat → Option Nat
  | [] => none
  | x :: xs => some (xs.foldl max x)

/-- Python `sep.join(parts)`. -/
def pyJoin (sep : String) : List String → String
  | [] => ""
  | [x] => x
  | x :: xs => x ++ sep ++ pyJoin sep xs

/-- Python format `f"{s:>w}"`: pad `s` on the left with spaces up to width
`w` (no-op when `s` is already at least that wide). -/
def padLeft (s : String) (w : Nat) : String :=
  String.mk (List.replicate (w - s.length) ' ') ++ s

/-- Accumulator pass for Python `str.splitlines` restricted to `"\n"`
separators: `acc` holds the (reversed) characters of the current line. -/
def splitLinesAux : List Char → List Char → List String
  | [], [] => []
  | [], acc => [String.mk acc.reverse]
  | c :: cs, acc =>
      if c = '\n' then String.mk acc.reverse :: splitLinesAux cs []
      else splitLinesAux cs (c :: acc)

/-- Python `s.splitlines()` (newline-only flavour): splits at `'\n'`, does
not produce a final empty line for a trailing newline, and returns `[]` for
the empty string. -/
def pySplitLines (s : String) : List String :=
  splitLinesAux s.data []

/--
`RichReporterRenderer.detail_view` from `conda_rich/hooks.py`:

    table_parts = [""]
    longest_header = max(map(len, data.keys()))
    for header, value in data.items():
        table_parts.append(f" {header:>{longest_header}} : {value}")
    table_parts.append("\n")
    return "\n".join(table_parts)

The insertion-ordered dict is a key/value list; `max` over the empty key set
raises `ValueError`, modelled as `none` (the string is never returned).
-/
def detail_view (data : List (String × PyValue)) : Option String :=
  match pyMax (data.map (fun kv => kv.1.length)) with
  | none => none
  | some longest_header =>
      some (pyJoin "\n"
        ([""]
          ++ data.map (fun kv =>
              " " ++ padLeft kv.1 longest_header ++ " : " ++ kv.2.toStr)
          ++ ["\n"]))

/-! ### Quiet progress bar (`QuietProgressBar`) -/

/-- State of a `QuietProgressBar` (it only remembers its description). -/
structure QuietProgressBar where
  description : String
deriving DecidableEq, Repr

/-- `QuietProgressBar.__init__`: stores the description and writes
`"...downloading {description}...\n"` to standard output.  The second
component is the text written to stdout. -/
def QuietProgressBar.init (description : String) :
    QuietProgressBar × String :=
  (⟨description⟩, "...downloading " ++ description ++ "...\n")

/-- `QuietProgressBar.update_to`: a no-op (Python body `pass`, returns
`None`); no state change, nothing written. -/
def QuietProgressBar.update_to (bar : QuietProgressBar) (fraction : ℚ) :
    QuietProgressBar × String :=
  (bar, "")

/-- `QuietProgressBar.refresh`: a no-op returning `None`. -/
def QuietProgressBar.refresh (bar : QuietProgressBar) :
    QuietProgressBar × String :=
  (bar, "")

/-- `QuietProgressBar.close`: a no-op returning `None`. -/
def QuietProgressBar.close (bar : QuietProgressBar) :
    QuietProgressBar × String :=
  (bar, "")

/-! ### The external `rich.progress.Progress` task table

`RichProgressBar` delegates to a `rich.progress.Progress` object owned by
the caller.  We embed the part of its state the adapter reads and writes:
a table of tasks, each with a description, a total, completed units and a
visibility bit.  `add_task(description, total=1)` registers a new task,
visible, with 0 completed units (rich defaults), and returns its id;
`update(task, completed=...)` / `update(task, visible=...)` mutate one
task; `stop_task` stops its clock (tracked as a flag). -/

/-- One task row of a `rich.progress.Progress` display. -/
structure RichTask where
  description : String
  total : ℚ
  completed : ℚ
  visible : Bool
  stopped : Bool
deriving DecidableEq, Repr

/-- The mutable task table of a `rich.progress.Progress` object: task ids
are allocated consecutively. -/
structure Progress where
  nextId : Nat
  tasks : Nat → Option RichTask

/-- A fresh `rich.progress.Progress` with no tasks. -/
def Progress.empty : Progress :=
  ⟨0, fun _ => none⟩

/-- `Progress.add_task(description, total=t)`: appends a new visible task
with 0 completed units and returns its id. -/
def Progress.add_task (p : Progress) (description : String) (total : ℚ) :
    Progress × Nat :=
  (⟨p.nextId + 1,
    fun i =>
      if i = p.nextId then
        some ⟨description, total, 0, true, false⟩
      else p.tasks i⟩,
   p.nextId)

/-- Apply `f` to the task with id `id`, if present. -/
def Progress.updateTask (p : Progress) (id : Nat) (f : RichTask → RichTask) :
    Progress :=
  ⟨p.nextId, fun i => if i = id then (p.tasks i).map f else p.tasks i⟩

/-! ### Interactive progress bar (`RichProgressBar`) -/

/-- State of a `RichProgressBar` after a successful `__init__`: the
borrowed `Progress` is carried alongside (field `progress` in Python;
here threaded explicitly), `task` is the id returned by `add_task`. -/
structure RichProgressBar where
  description : String
  visible_when_finished : Bool
  task : Nat
deriving DecidableEq, Repr

/-- `RichProgressBar.__init__(description, context_manager=None,
visible_when_finished=False)`: `context_manager` must be a
`rich.progress.Progress` instance (`some` here; `none` covers `None` and
any non-`Progress` value, which fail the `isinstance` check alike).
Otherwise `self.progress` stays `None` and a `CondaError` with the fixed
message is raised before any task is registered.  On success one task with
`total = 1` is registered in the shared `Progress`. -/
def RichProgressBar.init (description : String)
    (context_manager : Option Progress) (visible_when_finished : Bool) :
    Except CondaError (RichProgressBar × Progress) :=
  match context_manager with
  | none =>
      .error (.mk "Rich is configured, but there is no progress bar available")
  | some progress =>
      let r := progress.add_task description 1
      .ok (⟨description, visible_when_finished, r.2⟩, r.1)

/-- `RichProgressBar.update_to(fraction)`: sets the task's completed units
to `fraction`; when `fraction == 1` it additionally sets the task's
visibility to `visible_when_finished`.  (The `self.progress is not None`
guard always holds after a successful `__init__`, which raised otherwise.) -/
def RichProgressBar.update_to (bar : RichProgressBar) (p : Progress)
    (fraction : ℚ) : Progress :=
  let p2 := p.updateTask bar.task (fun t => { t with completed := fraction })
  if fraction = 1 then
    p2.updateTask bar.task (fun t => { t with visible := bar.visible_when_finished })
  else p2

/-- `RichProgressBar.close`: stops this task's slot in the shared display
(`Progress.stop_task`); the shared context itself is untouched. -/
def RichProgressBar.close (bar : RichProgressBar) (p : Progress) : Progress :=
  p.updateTask bar.task (fun t => { t with stopped := true })

/-- `RichProgressBar.refresh`: forces a redraw of the shared display; no
task state changes. -/
def RichProgressBar.refresh (bar : RichProgressBar) (p : Progress) : Progress :=
  p

/-! ### Spinners -/

/-- State of a `QuietSpinner` (message and fail message, from
`SpinnerBase.__init__`). -/
structure QuietSpinner where
  message : String
  fail_message : String
deriving DecidableEq, Repr

/-- `QuietSpinner.__enter__`: writes `"{message}: "` then
`"...working... "` to stdout, flushing after each write. -/
def QuietSpinner.enter (s : QuietSpinner) : String :=
  (s.message ++ ": ") ++ "...working... "

/-- `QuietSpinner.__exit__(exc_type, exc_val, exc_tb)`: writes
`f"{fail_message}\n"` when an exception is propagating, else `"done\n"`,
and flushes.  Returns Python `None` (falsy), so a propagating exception is
never suppressed — the `Bool` is the truthiness of the return value. -/
def QuietSpinner.exit (s : QuietSpinner) (exc : Option PyExc) :
    String × Bool :=
  match exc with
  | some _ => (s.fail_message ++ "\n", false)
  | none => ("done\n", false)

/-- Running `with QuietSpinner(message, fail_message): body` where the body
writes `bodyOut` and raises `exc` (or `none`): the result is the full text
written to stdout and the exception the caller observes. -/
def withQuietSpinner (s : QuietSpinner) (bodyOut : String)
    (exc : Option PyExc) : String × Option PyExc :=
  let entry := s.enter
  let r := s.exit exc
  (entry ++ bodyOut ++ r.1, if r.2 then none else exc)

/-- The live display surface (`rich.live.Live`) borrowed by a
`RichSpinner` between `__enter__` and `__exit__`; `torn_down` records that
its own `__exit__` ran. -/
structure LiveCtx where
  torn_down : Bool
deriving DecidableEq, Repr

/-- State of a `RichSpinner`: message, fail message (unused by this class)
and the live display context, `none` before `__enter__`. -/
structure RichSpinner where
  message : String
  fail_message : String
  live_ctx : Option LiveCtx
deriving DecidableEq, Repr

/-- `RichSpinner.__init__(message, fail_message="failed\n")`: stores both
strings; `live_ctx` starts as `None`. -/
def RichSpinner.init (message : String) (fail_message : String) :
    RichSpinner :=
  ⟨message, fail_message, none⟩

/-- `RichSpinner.__enter__`: builds a spinner-row `Progress`, enters a
transient `Live` display around it and starts the animation.  The animated
frames are transient (erased on teardown) and so contribute nothing to the
captured output; the observable effect is that `live_ctx` is now live. -/
def RichSpinner.enter (s : RichSpinner) : RichSpinner :=
  { s with live_ctx := some ⟨false⟩ }

/-- `RichSpinner.__exit__(exc_type, exc_val, exc_tb)`: when a live context
exists, prints `"{message} (done)"` (a console line, hence a trailing
newline) and exits the `Live` context, tearing the surface down; the
exception arguments are forwarded but never suppress the exception
(`Live.__exit__` and this method both return falsy values). -/
def RichSpinner.exit (s : RichSpinner) (exc : Option PyExc) :
    RichSpinner × String × Bool :=
  match s.live_ctx with
  | some _ => ({ s with live_ctx := some ⟨true⟩ }, s.message ++ " (done)\n", false)
  | none => (s, "", false)

/-! ### Renderer dispatch and `envs_list`

`context.quiet` is a process-wide flag owned by the host (`conda`), read
inside `progress_bar` and `spinner` at the moment of each call; the
renderer instance stores nothing.  We therefore pass the flag's value at
the moment of the call as an explicit argument to each dispatching method. -/

/-- What `RichReporterRenderer.progress_bar` returns: either a quiet bar
(with the line it wrote on construction) or an interactive bar (with the
shared `Progress` it registered its task in). -/
inductive ProgressBarVariant
  | quiet (bar : QuietProgressBar) (output : String)
  | rich (bar : RichProgressBar) (progress : Progress)

/-- `RichReporterRenderer.progress_bar(description, **kwargs)`: reads
`context.quiet` (argument `quiet`) and constructs `QuietProgressBar` when
it is set, `RichProgressBar` otherwise; the latter's constructor may raise
`CondaError`. -/
def RichReporterRenderer.progress_bar (quiet : Bool) (description : String)
    (context_manager : Option Progress) (visible_when_finished : Bool) :
    Except CondaError ProgressBarVariant :=
  if quiet then
    let r := QuietProgressBar.init description
    .ok (.quiet r.1 r.2)
  else
    (RichProgressBar.init description context_manager visible_when_finished).map
      (fun r => .rich r.1 r.2)

/-- What `RichReporterRenderer.spinner` returns. -/
inductive SpinnerVariant
  | quiet (s : QuietSpinner)
  | rich (s : RichSpinner)
deriving DecidableEq, Repr

/-- `RichReporterRenderer.spinner(message, fail_message="failed\n")`:
reads `context.quiet` (argument `quiet`) and constructs `QuietSpinner`
when it is set, `RichSpinner` otherwise. -/
def RichReporterRenderer.spinner (quiet : Bool) (message : String)
    (fail_message : String) : SpinnerVariant :=
  if quiet then .quiet ⟨message, fail_message⟩
  else .rich (RichSpinner.init message fail_message)

/-- `true` for the quiet constructor's result, `false` for the interactive
one, `none` when the factory raised instead of returning. -/
def pbVariantKind : Except CondaError ProgressBarVariant → Option Bool
  | .ok (.quiet _ _) => some true
  | .ok (.rich _ _) => some false
  | .error _ => none

/-- `true` iff the spinner factory returned the quiet variant. -/
def spinnerIsQuiet : SpinnerVariant → Bool
  | .quiet _ => true
  | .rich _ => false

/-- A single-quote character as a string (the quote the console's list
formatting puts around each element). -/
def sq : String :=
  String.singleton (Char.ofNat 39)

/-- The console's textual rendering of a Python list of strings, as
produced by `rich.console.Console.print` on a `list` (native
container-display punctuation, matching the repository's own test
`test_rich_reporter_renderer_env_list`): comma-separated single-quoted
elements in square brackets. -/
def consoleListRepr (xs : List String) : String :=
  "[" ++ pyJoin ", " (xs.map (fun x => sq ++ x ++ sq)) ++ "]"

/-- `RichReporterRenderer.envs_list(data)`: inside a console capture,
prints the header line `"Environments"` and then the list itself; each
`Console.print` appends a newline.  Returns the captured text. -/
def RichReporterRenderer.envs_list (data : List String) : String :=
  ("Environments" ++ "\n") ++ (consoleListRepr data ++ "\n")

/-- The plugin descriptor yielded by `conda_reporter_backends`. -/
structure CondaReporterBackend where
  name : String
  description : String
deriving DecidableEq, Repr

/-- `conda_reporter_backends`: yields the single descriptor registering
the renderer under the name `"rich"`. -/
def conda_reporter_backends : List CondaReporterBackend :=
  [⟨"rich", "Rich implementation for console reporting in conda"⟩]

/-- The detail view as the words of the specification describe the key
alignment ("each key is right-padded to the width of the longest key"):
identical to `detail_view` except that each key is padded on the right
(left-justified) instead of on the left.  Stated only to be compared with
the source's `detail_view`. -/
def detail_view_right_padded (data : List (String × PyValue)) : Option String :=
  match pyMax (data.map (fun kv => kv.1.length)) with
  | none => none
  | some longest_header =>
      some (pyJoin "\n"
        ([""]
          ++ data.map (fun kv =>
              " " ++ (kv.1 ++ String.mk (List.replicate (longest_header - kv.1.length) ' '))
                ++ " : " ++ kv.2.toStr)
          ++ ["\n"]))

end CondaRich

namespace CondaRich

/-! Helper lemmas about the embedded string operations. -/

theorem string_mk_data (s : String) : String.mk s.data = s := by
  cases s
  rfl

theorem pyJoin_cons (sep x : String) (ys : List String) (h : ys ≠ []) :
    pyJoin sep (x :: ys) = x ++ sep ++ pyJoin sep ys := by
  cases ys with
  | nil => exact absurd rfl h
  | cons y ys => rfl

theorem splitLinesAux_newline (cs rest acc : List Char) (h : '\n' ∉ cs) :
    splitLinesAux (cs ++ '\n' :: rest) acc
      = String.mk (acc.reverse ++ cs) :: splitLinesAux rest [] := by
  induction cs generalizing acc with
  | nil => simp [splitLinesAux]
  | cons c cs ih =>
      have hc : c ≠ '\n' := fun hceq => h (hceq ▸ List.mem_cons_self c cs)
      rw [List.cons_append]
      show splitLinesAux (c :: (cs ++ '\n' :: rest)) acc = _
      rw [splitLinesAux, if_neg hc,
        ih (c :: acc) (fun hm => h (List.mem_cons_of_mem c hm))]
      simp

theorem splitLinesAux_join (rows : List String)
    (h : ∀ r ∈ rows, '\n' ∉ r.data) :
    splitLinesAux ((pyJoin "\n" (rows ++ ["\n"])).data) [] = rows ++ [""] := by
  induction rows with
  | nil => rfl
  | cons r rs ih =>
      have hne : rs ++ ["\n"] ≠ [] := by
        intro hc
        simpa using congrArg List.length hc
      rw [List.cons_append, pyJoin_cons _ _ _ hne, String.data_append,
        String.data_append]
      have e3 : ("\n" : String).data = ['\n'] := rfl
      rw [e3, List.append_assoc, List.singleton_append,
        splitLinesAux_newline _ _ _ (h r (List.mem_cons_self r rs)),
        ih (fun x hx => h x (List.mem_cons_of_mem r hx))]
      simp [string_mk_data]

theorem pySplitLines_join (rows : List String)
    (h : ∀ r ∈ rows, '\n' ∉ r.data) :
    pySplitLines (pyJoin "\n" ([""] ++ rows ++ ["\n"]))
      = [""] ++ rows ++ [""] := by
  have hne : rows ++ ["\n"] ≠ [] := by
    intro hc
    simpa using congrArg List.length hc
  have e1 : ([""] ++ rows ++ ["\n"]) = "" :: (rows ++ ["\n"]) := by simp
  rw [e1, pyJoin_cons _ _ _ hne]
  have e2 : ("" : String) ++ "\n" = "\n" := rfl
  rw [e2]
  show splitLinesAux (("\n" ++ pyJoin "\n" (rows ++ ["\n"])).data) [] = _
  rw [String.data_append]
  have e3 : ("\n" : String).data = ['\n'] := rfl
  rw [e3, List.singleton_append, splitLinesAux]
  rw [if_pos rfl, splitLinesAux_join rows h]
  rfl

theorem le_foldl_max (xs : List Nat) (x : Nat) :
    x ≤ xs.foldl max x ∧ ∀ y ∈ xs, y ≤ xs.foldl max x := by
  induction xs generalizing x with
  | nil => simp
  | cons z zs ih =>
      rw [List.foldl_cons]
      refine ⟨le_trans (le_max_left x z) (ih (max x z)).1, ?_⟩
      intro y hy
      rcases List.mem_cons.mp hy with h | h
      · subst h
        exact le_trans (le_max_right x y) (ih (max x y)).1
      · exact (ih (max x z)).2 y h

theorem row_no_newline (kv : String × PyValue) (w : Nat)
    (h1 : '\n' ∉ kv.1.data) (h2 : '\n' ∉ kv.2.toStr.data) :
    '\n' ∉ (" " ++ padLeft kv.1 w ++ " : " ++ kv.2.toStr).data := by
  intro hmem
  rw [String.data_append, String.data_append, String.data_append] at hmem
  rcases List.mem_append.mp hmem with hmem | hmem
  · rcases List.mem_append.mp hmem with hmem | hmem
    · rcases List.mem_append.mp hmem with hmem | hmem
      · exact absurd hmem (by decide)
      · rw [padLeft, String.data_append] at hmem
        rcases List.mem_append.mp hmem with hmem | hmem
        · exact absurd (List.eq_of_mem_replicate hmem) (by decide)
        · exact h1 hmem
    · exact absurd hmem (by decide)
  · exact h2 hmem

theorem pyJoin_mem_surrounds (sep : String) (parts : List String) :
    ∀ r ∈ parts, ∃ a b, (pyJoin sep parts).data = a ++ r.data ++ b := by
  induction parts with
  | nil =>
      intro r hr
      simp at hr
  | cons x xs ih =>
      intro r hr
      cases xs with
      | nil =>
          have hrx : r = x := by simpa using hr
          exact ⟨[], [], by simp [hrx, pyJoin]⟩
      | cons y ys =>
          rw [pyJoin_cons _ _ _ (List.cons_ne_nil y ys)]
          rcases List.mem_cons.mp hr with h | h
          · subst h
            refine ⟨[], sep.data ++ (pyJoin sep (y :: ys)).data, ?_⟩
            rw [String.data_append, String.data_append]
            simp
          · obtain ⟨a, b, hab⟩ := ih r h
            refine ⟨x.data ++ sep.data ++ a, b, ?_⟩
            rw [String.data_append, String.data_append, hab]
            simp

theorem updateTask_tasks_self (p : Progress) (id : Nat)
    (f : RichTask → RichTask) :
    (p.updateTask id f).tasks id = (p.tasks id).map f := by
  simp [Progress.updateTask]

theorem update_to_tasks (bar : RichProgressBar) (p : Progress) (fr : ℚ)
    (t : RichTask) (h : p.tasks bar.task = some t) :
    (bar.update_to p fr).tasks bar.task
      = some (if fr = 1 then
                { t with completed := fr, visible := bar.visible_when_finished }
              else { t with completed := fr }) := by
  by_cases h1 : fr = 1 <;>
    simp [RichProgressBar.update_to, h1, updateTask_tasks_self, h]

theorem foldl_update_to_last_one (bar : RichProgressBar) :
    ∀ (fs : List ℚ), fs.getLast? = some 1 →
      ∀ (p : Progress) (t : RichTask), p.tasks bar.task = some t →
        ∃ t2, (fs.foldl bar.update_to p).tasks bar.task = some t2
          ∧ t2.completed = 1 ∧ t2.visible = bar.visible_when_finished
  | [], hlast => by simp at hlast
  | [x], hlast => by
      intro p t hpt
      have hx : x = 1 := by simpa using hlast
      subst hx
      refine ⟨{ t with completed := 1, visible := bar.visible_when_finished },
        ?_, rfl, rfl⟩
      rw [List.foldl_cons, List.foldl_nil, update_to_tasks bar p 1 t hpt,
        if_pos rfl]
  | x :: y :: ys, hlast => by
      intro p t hpt
      have hlast2 : (y :: ys).getLast? = some 1 := by
        rwa [List.getLast?_cons_cons] at hlast
      rw [List.foldl_cons]
      exact foldl_update_to_last_one bar (y :: ys) hlast2 (bar.update_to p x)
        _ (update_to_tasks bar p x t hpt)

/-! Claim theorems. -/

/-- C1: constructing a `RichProgressBar` without a usable shared display
context — in particular with `context_manager=None` — always fails by
raising `CondaError` with message exactly
"Rich is configured, but there is no progress bar available", returned
immediately to the caller with no fallback (the result is the error, for
every description and every `visible_when_finished` flag). -/
theorem rich_progress_bar_requires_context (description : String)
    (vwf : Bool) :
    RichProgressBar.init description none vwf
      = .error
          (CondaError.mk
            "Rich is configured, but there is no progress bar available") :=
  rfl

/-- C10: `detail_view` applied to the empty mapping never returns a
string: Python `max` over the empty key sequence raises `ValueError`
(modelled as `none`) before any row is rendered. -/
theorem detail_view_empty_raises : detail_view [] = none := rfl

/-- C4: a `RichSpinner` scope always prints "{message} (done)\n" to the
console and tears down its live display surface on exit (the final
`live_ctx` records the teardown), regardless of whether the scope exited
normally or via a raised error, and never suppresses the error. -/
theorem rich_spinner_exit_spec (message fail_message : String)
    (exc : Option PyExc) :
    ((RichSpinner.init message fail_message).enter).exit exc
      = (⟨message, fail_message, some ⟨true⟩⟩, message ++ " (done)\n", false) :=
  rfl

/-- C6: on every call, `progress_bar` and `spinner` return the quiet
variant exactly when the process-wide quiet flag is set at the moment of
the call, and the interactive variant otherwise (for `progress_bar` the
interactive constructor raises instead of returning when no `Progress`
context is supplied); the flag is an argument of each dispatch, read
fresh per call — the renderer caches nothing. -/
theorem renderer_dispatch_on_quiet (quiet : Bool) (description : String)
    (cm : Option Progress) (vwf : Bool) (message fail_message : String) :
    pbVariantKind (RichReporterRenderer.progress_bar quiet description cm vwf)
      = (if quiet then some true else if cm.isSome then some false else none)
    ∧ spinnerIsQuiet (RichReporterRenderer.spinner quiet message fail_message)
      = quiet := by
  constructor
  · cases quiet with
    | true => rfl
    | false => cases cm <;> rfl
  · cases quiet <;> rfl

/-- C7: for every description, constructing a `QuietProgressBar` writes
exactly "...downloading {description}...\n" to standard output and does
nothing else (the state only stores the description), and every
subsequent call to `update_to`, `refresh`, or `close` is a no-op: it
leaves the bar unchanged, writes nothing, and returns Python `None`. -/
theorem quiet_progress_bar_spec (description : String)
    (bar : QuietProgressBar) (f : ℚ) :
    QuietProgressBar.init description
        = (⟨description⟩, "...downloading " ++ description ++ "...\n")
    ∧ bar.update_to f = (bar, "")
    ∧ bar.refresh = (bar, "")
    ∧ bar.close = (bar, "") :=
  ⟨rfl, rfl, rfl, rfl⟩

/-- C9: `envs_list` applied to ["one", "two", "three"] returns exactly
"Environments\n['one', 'two', 'three']\n" — the header line followed by
the console's literal print formatting of the list, captured from the
console-output sink (`sq` is the single-quote character). -/
theorem envs_list_concrete :
    RichReporterRenderer.envs_list ["one", "two", "three"]
      = "Environments\n[" ++ sq ++ "one" ++ sq ++ ", " ++ sq ++ "two" ++ sq
        ++ ", " ++ sq ++ "three" ++ sq ++ "]\n" := by
  decide

/-- C3 counterexample: with the default `fail_message = "failed\n"`, a
quiet spinner scope that exits via an error writes
"test: ...working... failed\n\n" — `fail_message` followed by an extra
newline — not "test: ...working... failed\n" as the claim states. -/
theorem quiet_spinner_fail_counterexample :
    withQuietSpinner ⟨"test", "failed\n"⟩ "" (some (PyExc.mk "boom"))
      = ("test: ...working... failed\n\n", some (PyExc.mk "boom"))
    ∧ ("test: ...working... failed\n\n" : String)
        ≠ "test: ...working... failed\n" :=
  ⟨rfl, by decide⟩

/-- C3 amended: a quiet spinner scope writes "{message}: ...working... "
on entry; on normal exit it then writes "done\n"; on exit via a
propagating error it then writes `fail_message` followed by a newline
(so the default `fail_message = "failed\n"` produces "failed\n\n"); the
same error is re-raised unchanged to the caller. -/
theorem quiet_spinner_scope_spec (message fail_message bodyOut : String)
    (e : PyExc) :
    withQuietSpinner ⟨message, fail_message⟩ bodyOut none
      = (((message ++ ": ") ++ "...working... ") ++ bodyOut ++ "done\n", none)
    ∧ withQuietSpinner ⟨message, fail_message⟩ bodyOut (some e)
      = (((message ++ ": ") ++ "...working... ") ++ bodyOut
          ++ (fail_message ++ "\n"), some e) :=
  ⟨rfl, rfl⟩

/-- C2 counterexample: for the non-empty mapping {"k": "a\nb"} (a string
value containing a newline, printed verbatim with no wrapping or
truncation), the output of `detail_view` has 4 lines, not
`len(data) + 2 = 3`. -/
theorem detail_view_line_count_counterexample :
    (detail_view [("k", PyValue.str "a\nb")]).map
        (fun s => (pySplitLines s).length) = some 4
    ∧ (4 : Nat) ≠ [("k", PyValue.str "a\nb")].length + 2 :=
  ⟨by decide, by decide⟩

/-- C2 amended: for every non-empty key/value mapping whose keys and
rendered values contain no newline character, `detail_view` returns a
string with exactly `len(data) + 2` lines — a leading blank line, one
" key : value" row per entry in the mapping's insertion order (keys
aligned to the longest-key width `w`), and a trailing blank line. -/
theorem detail_view_line_count (data : List (String × PyValue))
    (hne : data ≠ [])
    (hnodup : (data.map Prod.fst).Nodup)
    (hnl : ∀ kv ∈ data, '\n' ∉ kv.1.data ∧ '\n' ∉ kv.2.toStr.data) :
    ∃ s w, detail_view data = some s
      ∧ pyMax (data.map (fun kv => kv.1.length)) = some w
      ∧ pySplitLines s
          = [""] ++ data.map
              (fun kv => " " ++ padLeft kv.1 w ++ " : " ++ kv.2.toStr)
            ++ [""]
      ∧ (pySplitLines s).length = data.length + 2 := by
  obtain ⟨kv0, rest, rfl⟩ : ∃ kv0 rest, data = kv0 :: rest := by
    cases data with
    | nil => exact absurd rfl hne
    | cons a l => exact ⟨a, l, rfl⟩
  have hnlr : ∀ r ∈ (kv0 :: rest).map
      (fun kv => " " ++ padLeft kv.1
          ((rest.map (fun kv : String × PyValue => kv.1.length)).foldl max
            kv0.1.length) ++ " : " ++ kv.2.toStr),
      '\n' ∉ r.data := by
    intro r hr
    obtain ⟨kv, hkv, rfl⟩ := List.mem_map.mp hr
    exact row_no_newline kv _ (hnl kv hkv).1 (hnl kv hkv).2
  refine ⟨_, _, rfl, rfl, pySplitLines_join _ hnlr, ?_⟩
  rw [pySplitLines_join _ hnlr]
  simp

/-- Witness for the amended C2 at the mapping from the repository's own
detail-view test. -/
theorem detail_view_line_count_witness :
    ∃ s w,
      detail_view
          [("field_one", PyValue.str "one"), ("field_two", PyValue.str "two")]
        = some s
      ∧ pyMax ([("field_one", PyValue.str "one"),
          ("field_two", PyValue.str "two")].map (fun kv => kv.1.length))
        = some w
      ∧ pySplitLines s
          = [""] ++ [("field_one", PyValue.str "one"),
                ("field_two", PyValue.str "two")].map
                (fun kv => " " ++ padLeft kv.1 w ++ " : " ++ kv.2.toStr)
            ++ [""]
      ∧ (pySplitLines s).length
          = [("field_one", PyValue.str "one"),
              ("field_two", PyValue.str "two")].length + 2 :=
  detail_view_line_count _ (by decide) (by decide) (by decide)

/-- C8 counterexample: on the mapping {"a": "1", "bb": "2"} the source's
`detail_view` right-aligns the short key ("  a : 1"), which differs from
the output obtained by right-padding each key to the longest-key width
(" a  : 1"), so keys are not right-padded. -/
theorem detail_view_right_padding_counterexample :
    detail_view [("a", PyValue.str "1"), ("bb", PyValue.str "2")]
      = some "\n  a : 1\n bb : 2\n\n"
    ∧ detail_view_right_padded [("a", PyValue.str "1"), ("bb", PyValue.str "2")]
      = some "\n a  : 1\n bb : 2\n\n"
    ∧ ("\n  a : 1\n bb : 2\n\n" : String) ≠ "\n a  : 1\n bb : 2\n\n" :=
  ⟨by decide, by decide, by decide⟩

/-- C8 amended: in the output of `detail_view` for every non-empty
mapping, each key is left-padded with spaces (right-aligned) to the width
`w` of the longest key: the padded key has length exactly `w`, consists
of spaces followed by the key, and its row " key : value" occurs in the
output. -/
theorem detail_view_keys_left_padded (data : List (String × PyValue))
    (hne : data ≠ [])
    (hnodup : (data.map Prod.fst).Nodup) :
    ∃ s w, detail_view data = some s
      ∧ pyMax (data.map (fun kv => kv.1.length)) = some w
      ∧ ∀ kv ∈ data,
          kv.1.length ≤ w
          ∧ (padLeft kv.1 w).length = w
          ∧ (padLeft kv.1 w).data
              = List.replicate (w - kv.1.length) ' ' ++ kv.1.data
          ∧ ∃ a b, s.data
              = a ++ (" " ++ padLeft kv.1 w ++ " : " ++ kv.2.toStr).data ++ b := by
  obtain ⟨kv0, rest, rfl⟩ : ∃ kv0 rest, data = kv0 :: rest := by
    cases data with
    | nil => exact absurd rfl hne
    | cons a l => exact ⟨a, l, rfl⟩
  refine ⟨_, _, rfl, rfl, ?_⟩
  intro kv hkv
  have hle : kv.1.length
      ≤ (rest.map (fun kv : String × PyValue => kv.1.length)).foldl max
          kv0.1.length := by
    rcases List.mem_cons.mp hkv with h | h
    · exact h ▸ (le_foldl_max _ _).1
    · exact (le_foldl_max _ _).2 _
        (List.mem_map_of_mem (fun kv : String × PyValue => kv.1.length) h)
  refine ⟨hle, ?_, ?_, ?_⟩
  · rw [padLeft, String.length_append, String.length_mk,
      List.length_replicate]
    exact Nat.sub_add_cancel hle
  · rw [padLeft, String.data_append]
  · apply pyJoin_mem_surrounds
    apply List.mem_append.mpr
    left
    apply List.mem_append.mpr
    right
    exact List.mem_map_of_mem _ hkv

/-- Witness for the amended C8 at a mapping with keys of different
lengths. -/
theorem detail_view_keys_left_padded_witness :
    ∃ s w,
      detail_view [("id", PyValue.str "3"), ("name", PyValue.str "x")]
        = some s
      ∧ pyMax ([("id", PyValue.str "3"), ("name", PyValue.str "x")].map
          (fun kv => kv.1.length)) = some w
      ∧ ∀ kv ∈ [("id", PyValue.str "3"), ("name", PyValue.str "x")],
          kv.1.length ≤ w
          ∧ (padLeft kv.1 w).length = w
          ∧ (padLeft kv.1 w).data
              = List.replicate (w - kv.1.length) ' ' ++ kv.1.data
          ∧ ∃ a b, s.data
              = a ++ (" " ++ padLeft kv.1 w ++ " : " ++ kv.2.toStr).data ++ b :=
  detail_view_keys_left_padded _ (by decide) (by decide)

/-- C5: for a `RichProgressBar` successfully constructed against a shared
`Progress` display, every `update_to` call sets the task's completed
units to the given fraction, and for any sequence of `update_to` calls
with fractions in [0,1] ending at 1 the task's final completed units are
1 and its final visibility equals the `visible_when_finished` flag. -/
theorem rich_progress_bar_update_to_spec (d : String) (vwf : Bool)
    (p0 p1 : Progress) (bar : RichProgressBar)
    (hinit : RichProgressBar.init d (some p0) vwf = .ok (bar, p1))
    (fs : List ℚ) (hmem : ∀ f ∈ fs, 0 ≤ f ∧ f ≤ 1)
    (hlast : fs.getLast? = some 1) :
    (∀ (p : Progress) (t : RichTask) (f : ℚ), p.tasks bar.task = some t →
        ∃ t2, (bar.update_to p f).tasks bar.task = some t2
          ∧ t2.completed = f)
    ∧ ∃ t2, (fs.foldl bar.update_to p1).tasks bar.task = some t2
        ∧ t2.completed = 1 ∧ t2.visible = vwf := by
  have hinj : bar = ⟨d, vwf, p0.nextId⟩ ∧ p1 = (p0.add_task d 1).1 := by
    simp [RichProgressBar.init] at hinit
    exact ⟨hinit.1.symm, hinit.2.symm⟩
  obtain ⟨hbar, hp1⟩ := hinj
  subst hbar
  subst hp1
  constructor
  · intro p t f hpt
    refine ⟨_, update_to_tasks _ p f t hpt, ?_⟩
    by_cases h1 : f = 1 <;> simp [h1]
  · have htask : ((p0.add_task d 1).1).tasks p0.nextId
        = some ⟨d, 1, 0, true, false⟩ := by
      simp [Progress.add_task]
    exact foldl_update_to_last_one _ fs hlast _ _ htask

/-- Witness for C5: a concrete run with fractions [0, 1] against a fresh
`Progress`, with `visible_when_finished = true`. -/
theorem rich_progress_bar_update_to_spec_witness :
    ∃ t2, (([(0 : ℚ), 1]).foldl (RichProgressBar.mk "pkg" true 0).update_to
        (Progress.empty.add_task "pkg" 1).1).tasks
          (RichProgressBar.mk "pkg" true 0).task = some t2
      ∧ t2.completed = 1 ∧ t2.visible = true :=
  (rich_progress_bar_update_to_spec "pkg" true Progress.empty
      (Progress.empty.add_task "pkg" 1).1 ⟨"pkg", true, 0⟩ rfl
      [(0 : ℚ), 1] (by decide) rfl).2

end CondaRich
